import Mathlib

/-!
Verification of the nowcast analysis engine (`src/doc/plos/code/analyze.py`)
against its natural-language specification.

Conventions of the shallow embedding:
* Python dicts keyed by epiweeks become association lists `List (ℕ × ℚ)`
  (`TimeSeries`); the spec's invariant "no duplicate epiweek within one
  TimeSeries" appears as `Nodup` hypotheses on key lists.
* Python/numpy floats become exact rationals `ℚ`.  A value that numpy would
  render as a non-finite float (`nan` from the mean of an empty array, `inf`
  or `nan` from dividing by a zero error) is modelled as `none : Option ℚ`.
* `np.sqrt` is irrational-valued, so metric results carry the radicand:
  the stored field `mse` is the mean of squared errors and the code's
  `rmse` is `Real.sqrt` of it; likewise `rmsseSq` stores the square of the
  code's `rmsse`.  Theorem statements apply `Real.sqrt` where the claims
  speak about `rmse` itself.
* The epiweek utility (`delphi.utils.epiweek`) and `np.median` are not part
  of the repository sources; they are modelled from the spec, as marked in
  the corresponding doc comments.
-/

namespace Nowcast

/-- A time series: a Python dict mapping epiweeks to values, embedded as an
association list.  Lookup takes the first matching key; under the spec's
no-duplicate-keys invariant this agrees with dict semantics. -/
abbrev TimeSeries := List (ℕ × ℚ)

/-- The epiweek keys of a series, in insertion order (Python `dict.keys()`). -/
def keys (t : TimeSeries) : List ℕ :=
  t.map Prod.fst

/-- `val t w` is Python `t[w]`; it is only meaningful when `w ∈ keys t`
(the code always guards accesses by key membership). -/
def val (t : TimeSeries) (w : ℕ) : ℚ :=
  (t.lookup w).getD 0

/-- `np.mean` over a list of (finite) values: `nan` on an empty array,
modelled as `none`; otherwise the exact rational mean. -/
def npMean (xs : List ℚ) : Option ℚ :=
  if xs.isEmpty then none else some (xs.sum / (xs.length : ℚ))

/-- IEEE-style float division as the code performs it on possibly-`nan`
metric values: the result is finite exactly when both operands are finite
and the denominator is nonzero; a `nan` operand or a zero denominator
(giving `inf` or `nan`) is modelled as `none`. -/
def fdiv : Option ℚ → Option ℚ → Option ℚ
  | some a, some b => if b = 0 then none else some (a / b)
  | _, _ => none

/-- `sorted(truth.keys() & nowcast.keys())` from `get_metrics`. -/
def commonWeeks (truth nowcast : TimeSeries) : List ℕ :=
  List.insertionSort (fun a b => a ≤ b)
    ((keys truth).filter (fun w => decide (w ∈ keys nowcast)))

/-- The result dict of `get_metrics` without a baseline: keys `n`, `rmse`,
`mae`.  `mse` is the radicand of the code's `rmse = np.sqrt(mse)`. -/
structure BaseMetrics where
  n : ℕ
  mse : Option ℚ
  mae : Option ℚ
deriving DecidableEq, Repr

/-- `Analysis.get_metrics(truth, nowcast)` (no `naive` baseline). -/
def get_metrics (truth nowcast : TimeSeries) : BaseMetrics :=
  let common_weeks := commonWeeks truth nowcast
  let a := common_weeks.map (fun ew => val truth ew)
  let b := common_weeks.map (fun ew => val nowcast ew)
  let d := List.zipWith (fun x y => x - y) a b
  { n := common_weeks.length
    mse := npMean (d.map (fun x => x ^ 2))
    mae := npMean (d.map (fun x => |x|)) }

/-- `trimmed_naive` from `get_metrics`: the baseline restricted to
`sorted(nowcast.keys() & naive.keys())`. -/
def trimmedNaive (nowcast naive : TimeSeries) : TimeSeries :=
  (commonWeeks nowcast naive).map (fun ew => (ew, val naive ew))

/-- The result dict of `get_metrics` with a baseline: additionally `mase`
and `rmsse`.  `rmsseSq` is the square of the code's
`rmsse = rmse / rmse_naive` (equal to `mse / mse_naive` for the defined
cases); `none` marks a non-finite float. -/
structure SkillMetrics where
  base : BaseMetrics
  mase : Option ℚ
  rmsseSq : Option ℚ
deriving DecidableEq, Repr

/-- `Analysis.get_metrics(truth, nowcast, naive)` with a baseline: the
recursive call `get_metrics(truth, trimmed_naive)` and the two skill-score
divisions. -/
def get_metrics_with_naive (truth nowcast naive : TimeSeries) : SkillMetrics :=
  let result := get_metrics truth nowcast
  let result_naive := get_metrics truth (trimmedNaive nowcast naive)
  { base := result
    mase := fdiv result.mae result_naive.mae
    rmsseSq := fdiv result.mse result_naive.mse }

/-- The spec's description of the restricted baseline: "`B` restricted
exactly to `keys(E) ∩ keys(B)`", written from the spec's words for
comparison with the code's `trimmedNaive`. -/
def specRestrict (B E : TimeSeries) : TimeSeries :=
  B.filter (fun r => decide (r.1 ∈ keys E))

/-- Modelled from the spec: the epiweek predecessor from
`delphi.utils.epiweek.add_epiweeks(ew, -1)`, whose source is not in this
repository.  Epiweeks are `year*100 + week`; stepping back from week 1
rolls over to the last week of the previous year.  `wy y` is the number of
epiweeks (52 or 53) in year `y`. -/
def prevEpiweek (wy : ℕ → ℕ) (ew : ℕ) : ℕ :=
  if ew % 100 = 1 then (ew / 100 - 1) * 100 + wy (ew / 100 - 1) else ew - 1

/-- Modelled from the spec: `add_epiweeks(ew, -lag)`, stepping back `lag`
epiweeks with year rollover. -/
def subEpiweeks (wy : ℕ → ℕ) (ew : ℕ) : ℕ → ℕ
  | 0 => ew
  | l + 1 => prevEpiweek wy (subEpiweeks wy ew l)

/-- Modelled from the spec: the epiweek successor, rolling over to week 1
of the next year past the year's last week. -/
def nextEpiweek (wy : ℕ → ℕ) (ew : ℕ) : ℕ :=
  if wy (ew / 100) ≤ ew % 100 then (ew / 100 + 1) * 100 + 1 else ew + 1

/-- Fuelled enumeration for `rangeEpiweeks`; each step strictly increases
the integer encoding, so `w1 + 1 - w0` units of fuel always suffice. -/
def rangeEpiweeksAux (wy : ℕ → ℕ) : ℕ → ℕ → ℕ → List ℕ
  | 0, _, _ => []
  | fuel + 1, w0, w1 =>
    if w1 < w0 then [] else w0 :: rangeEpiweeksAux wy fuel (nextEpiweek wy w0) w1

/-- Modelled from the spec: `delphi.utils.epiweek.range_epiweeks(w0, w1,
inclusive=True)`, the inclusive enumeration from `w0` to `w1`. -/
def rangeEpiweeks (wy : ℕ → ℕ) (w0 w1 : ℕ) : List ℕ :=
  rangeEpiweeksAux wy (w1 + 1 - w0) w0 w1

/-- `Analysis.get_naive_nowcast`: the lag is the code-level constant
`delta = 1` (Naive Oracle), applied to every epiweek of the truth series.
The truth series extracted by `get_truth(loc)` is taken as the argument. -/
def get_naive_nowcast (wy : ℕ → ℕ) (truth : TimeSeries) : TimeSeries :=
  let delta := 1
  (keys truth).filterMap (fun ew1 =>
    if subEpiweeks wy ew1 delta ∈ keys truth then
      some (ew1, val truth (subEpiweeks wy ew1 delta))
    else none)

/-- Modelled from the spec: `naive(location, lag)` with the lag as a
required, caller-selected parameter, as the spec prescribes. -/
def naiveSpec (wy : ℕ → ℕ) (truth : TimeSeries) (lag : ℕ) : TimeSeries :=
  (keys truth).filterMap (fun ew1 =>
    if subEpiweeks wy ew1 lag ∈ keys truth then
      some (ew1, val truth (subEpiweeks wy ew1 lag))
    else none)

/-- Modelled from the spec: `np.median` — sort, take the middle element for
an odd count, the arithmetic mean of the two middle elements for an even
count. -/
def npMedian (xs : List ℚ) : ℚ :=
  let s := List.insertionSort (fun a b => a ≤ b) xs
  if xs.length % 2 = 1 then s.getD (xs.length / 2) 0
  else (s.getD (xs.length / 2 - 1) 0 + s.getD (xs.length / 2) 0) / 2

/-- The sensor readings contributing at epiweek `ew`: the value of every
registered sensor's series that has an entry at `ew`, in registration
order (`FluDataSource.SENSORS`). -/
def contributions (sensors : List TimeSeries) (ew : ℕ) : List ℚ :=
  sensors.filterMap (fun s => s.lookup ew)

/-- `Analysis.get_alternative_nowcast`: the sensor-median ensemble.  The
per-sensor series `get_sensor(name, loc)` are taken as arguments, and
`get_truth(loc)` as `truth`. -/
def get_alternative_nowcast (sensors : List TimeSeries) (truth : TimeSeries) : TimeSeries :=
  (keys truth).filterMap (fun ew =>
    if contributions sensors ew ≠ [] then
      some (ew, npMedian (contributions sensors ew))
    else none)

/-- A row of an `nc_*` table: `(epiweek, location, value, std)`. -/
abbrev NcRow := ℕ × String × ℚ × ℚ

/-- The filtering loop of `Analysis.get_experiment` over the rows of one
`nc_<name>` table: keep rows of the requested location, dropping the
documented early vi/pr epiweeks. -/
def experimentFromRows (rows : List NcRow) (loc : String) : TimeSeries :=
  rows.filterMap (fun r =>
    if r.2.1 = loc then
      if (loc = "vi" ∧ r.1 < 201327) ∨ (loc = "pr" ∧ r.1 < 201453) then none
      else some (r.1, r.2.2.1)
    else none)

/-- `Analysis.get_experiment(name, loc)`: reads `self.data['nc_%s' % name]`
and filters.  `data` maps a table key to its loaded rows. -/
def get_experiment (data : String → List NcRow) (name loc : String) : TimeSeries :=
  experimentFromRows (data ("nc_" ++ name)) loc

/-- `Analysis.get_nowcast(loc)`: delegates to the vanilla experiment. -/
def get_nowcast (data : String → List NcRow) (loc : String) : TimeSeries :=
  get_experiment data ("vanilla") loc

/-- The minimum of a list of epiweeks (`min(...)` in Python); `none` on an
empty list, where Python raises `ValueError`. -/
def listMin : List ℕ → Option ℕ
  | [] => none
  | a :: rest => some ((listMin rest).elim a (min a))

/-- The maximum of a list of epiweeks; `none` on an empty list. -/
def listMax : List ℕ → Option ℕ
  | [] => none
  | a :: rest => some ((listMax rest).elim a (max a))

/-- Collects a list of optional values; `none` as soon as one entry is
`none` (a raised `ValueError` aborts the whole computation). -/
def seqOption {α : Type} : List (Option α) → Option (List α)
  | [] => some []
  | none :: _ => none
  | some a :: rest => (seqOption rest).map (fun l => a :: l)

/-- `Analysis.get_heatmap_data`: per-sensor minima and maxima (failing when
any sensor's series is empty), the inclusive epiweek axis, and the matrix
with sentinel `-1` wherever a sensor has no entry.  Each pair carries the
sensor's name (`FluDataSource.SENSORS`) and its extracted series at the
location. -/
def get_heatmap_data (wy : ℕ → ℕ) (sensors : List (String × TimeSeries)) :
    Option (List (List ℚ) × List String × List ℕ) :=
  match seqOption (sensors.map (fun s => listMin (keys s.2))),
        seqOption (sensors.map (fun s => listMax (keys s.2))) with
  | some w0s, some w1s =>
    match listMin w0s, listMax w1s with
    | some w0, some w1 =>
      let weeks := rangeEpiweeks wy w0 w1
      some (sensors.map (fun s =>
              weeks.map (fun ew => if ew ∈ keys s.2 then val s.2 ew else -1)),
            sensors.map Prod.fst,
            weeks)
    | _, _ => none
  | _, _ => none

/-- A loaded CSV cell after `load_everything`'s coercions: an `int`-coerced
epiweek, a `float`-coerced number, or a cell kept as raw text. -/
inductive Cell where
  | intC : Int → Cell
  | numC : ℚ → Cell
  | textC : String → Cell
deriving DecidableEq, Repr

/-- The per-row coercions of `Analysis.load_everything`, for rows of at
least three cells (all data files have 3 or 4 columns; for shorter rows the
Python indices `row[0]`, `row[-2]`, `row[-1]` alias and are not modelled).
`row[0] = int(row[0])` and `row[-1] = float(row[-1])` raise on a parse
failure (`none`); `row[-2] = float(row[-2])` is attempted and the raw text
kept when it fails; other cells stay raw text.  The `int` and `float`
parsers are the Python builtins, taken as parameters. -/
def coerceCells (intP : String → Option Int) (floatP : String → Option ℚ)
    (c0 : String) : List String → Option (List Cell)
  | cLast :: cPen :: midRev =>
    (intP c0).bind (fun i => (floatP cLast).map (fun q =>
      Cell.intC i :: (midRev.reverse.map Cell.textC)
        ++ [(floatP cPen).elim (Cell.textC cPen) Cell.numC, Cell.numC q]))
  | _ => none

/-- See `coerceCells`: dispatch on the first cell and the reversed remainder,
so that the last and second-to-last cells are exposed. -/
def coerceRow (intP : String → Option Int) (floatP : String → Option ℚ) :
    List String → Option (List Cell)
  | [] => none
  | c0 :: rest => coerceCells intP floatP c0 rest.reverse

theorem zipWith_map_same {α β γ : Type} (f : β → β → γ) (g h : α → β) (l : List α) :
    List.zipWith f (l.map g) (l.map h) = l.map (fun x => f (g x) (h x)) := by
  induction l with
  | nil => rfl
  | cons a t ih => simp [ih]

theorem mem_commonWeeks {T E : TimeSeries} {w : ℕ} :
    w ∈ commonWeeks T E ↔ w ∈ keys T ∧ w ∈ keys E := by
  unfold commonWeeks
  rw [List.mem_insertionSort]
  simp [List.mem_filter]

theorem commonWeeks_nodup {T E : TimeSeries} (hT : (keys T).Nodup) :
    (commonWeeks T E).Nodup := by
  unfold commonWeeks
  rw [(List.perm_insertionSort _ _).nodup_iff]
  exact hT.filter _

theorem commonWeeks_toFinset {T E : TimeSeries} :
    (commonWeeks T E).toFinset = (keys T).toFinset ∩ (keys E).toFinset := by
  ext a
  simp [mem_commonWeeks]

theorem commonWeeks_length {T E : TimeSeries} (hT : (keys T).Nodup) :
    (commonWeeks T E).length = ((keys T).toFinset ∩ (keys E).toFinset).card := by
  rw [← commonWeeks_toFinset, List.toFinset_card_of_nodup (commonWeeks_nodup hT)]

theorem commonWeeks_ne_nil {T E : TimeSeries}
    (hne : ((keys T).toFinset ∩ (keys E).toFinset).Nonempty) :
    commonWeeks T E ≠ [] := by
  obtain ⟨w, hw⟩ := hne
  intro h
  have : w ∈ (commonWeeks T E).toFinset := by rw [commonWeeks_toFinset]; exact hw
  rw [h] at this
  simp at this

/-- Cleaned-up form of `get_metrics`. -/

theorem get_metrics_eval (T E : TimeSeries) :
    get_metrics T E =
      { n := (commonWeeks T E).length
        mse := npMean ((commonWeeks T E).map (fun w => (val T w - val E w) ^ 2))
        mae := npMean ((commonWeeks T E).map (fun w => |val T w - val E w|)) } := by
  unfold get_metrics
  simp only [zipWith_map_same, List.map_map]
  rfl

theorem sum_map_commonWeeks {T E : TimeSeries} (hT : (keys T).Nodup) (f : ℕ → ℚ) :
    ((commonWeeks T E).map f).sum
      = ((keys T).toFinset ∩ (keys E).toFinset).sum f := by
  rw [← commonWeeks_toFinset, List.sum_toFinset f (commonWeeks_nodup hT)]

theorem npMean_zero {l : List ℚ} (h : l ≠ []) (hz : ∀ x ∈ l, x = 0) : npMean l = some 0 := by
  unfold npMean
  rw [if_neg (by simpa using h), List.sum_eq_zero hz]
  simp

theorem commonWeeks_self (T : TimeSeries) :
    commonWeeks T T = List.insertionSort (fun a b => a ≤ b) (keys T) := by
  unfold commonWeeks
  congr 1
  rw [List.filter_eq_self]
  intro a ha
  simpa using ha

theorem lookup_map_self (W : List ℕ) (f : ℕ → ℚ) (w : ℕ) (hw : w ∈ W) :
    (W.map (fun k => (k, f k))).lookup w = some (f w) := by
  induction W with
  | nil => cases hw
  | cons a t ih =>
    by_cases h : a = w
    · subst h
      simp [List.lookup]
    · rcases List.mem_cons.mp hw with rfl | hw'
      · exact absurd rfl h
      · have hne : (w == a) = false := by simp [beq_iff_eq]; exact fun e => h e.symm
        simp [List.lookup, hne, ih hw']

theorem lookup_filter_of (B : TimeSeries) (q : ℕ × ℚ → Bool) (w : ℕ)
    (hq : ∀ v, q (w, v) = true) :
    (B.filter q).lookup w = B.lookup w := by
  induction B with
  | nil => rfl
  | cons r t ih =>
    obtain ⟨k, v⟩ := r
    by_cases hk : k = w
    · subst hk
      simp [List.filter, hq v, List.lookup, ih]
    · have hne : (w == k) = false := by simp [beq_iff_eq]; exact fun e => hk e.symm
      by_cases hkp : q (k, v) = true
      · simp [List.filter, hkp, List.lookup, hne, ih]
      · simp [List.filter, hkp, List.lookup, hne, ih]

theorem keys_trimmedNaive (E B : TimeSeries) :
    keys (trimmedNaive E B) = commonWeeks E B := by
  unfold keys trimmedNaive
  have hcomp : (Prod.fst ∘ fun ew => ((ew, val B ew) : ℕ × ℚ)) = id := rfl
  rw [List.map_map, hcomp, List.map_id]

theorem mem_keys_specRestrict (B E : TimeSeries) (w : ℕ) :
    w ∈ keys (specRestrict B E) ↔ w ∈ keys B ∧ w ∈ keys E := by
  simp only [specRestrict, keys, List.mem_map, List.mem_filter]
  constructor
  · rintro ⟨r, ⟨hr, hd⟩, rfl⟩
    refine ⟨⟨r, hr, rfl⟩, by simpa [keys] using hd⟩
  · rintro ⟨⟨r, hr, rfl⟩, hE⟩
    exact ⟨r, ⟨hr, by simpa [keys] using hE⟩, rfl⟩

theorem val_trimmedNaive (E B : TimeSeries) (w : ℕ) (hw : w ∈ commonWeeks E B) :
    val (trimmedNaive E B) w = val B w := by
  unfold val trimmedNaive
  rw [lookup_map_self _ _ _ hw]
  rfl

theorem val_specRestrict (B E : TimeSeries) (w : ℕ) (hw : w ∈ keys E) :
    val (specRestrict B E) w = val B w := by
  unfold val specRestrict
  rw [lookup_filter_of B _ w (fun v => by simpa using hw)]

theorem get_metrics_congr (T X Y : TimeSeries)
    (hk : ∀ w, w ∈ keys X ↔ w ∈ keys Y)
    (hv : ∀ w, w ∈ keys X → val X w = val Y w) :
    get_metrics T X = get_metrics T Y := by
  have hcw : commonWeeks T X = commonWeeks T Y := by
    unfold commonWeeks
    congr 1
    apply List.filter_congr
    intro w _
    simp [hk w]
  rw [get_metrics_eval, get_metrics_eval, hcw]
  have hvals : ∀ f : ℚ → ℚ → ℚ,
      (commonWeeks T Y).map (fun w => f (val T w) (val X w))
        = (commonWeeks T Y).map (fun w => f (val T w) (val Y w)) := by
    intro f
    apply List.map_congr_left
    intro a ha
    have haY : a ∈ keys Y := (mem_commonWeeks.mp ha).2
    rw [hv a ((hk a).mpr haY)]
  have h1 := hvals (fun x y => (x - y) ^ 2)
  have h2 := hvals (fun x y => |x - y|)
  simp only at h1 h2
  rw [h1, h2]

theorem trimmed_eq_specRestrict (T E B : TimeSeries) :
    get_metrics T (trimmedNaive E B) = get_metrics T (specRestrict B E) := by
  apply get_metrics_congr
  · intro w
    rw [keys_trimmedNaive, mem_commonWeeks, mem_keys_specRestrict]
    exact and_comm
  · intro w hw
    rw [keys_trimmedNaive] at hw
    rw [val_trimmedNaive _ _ _ hw, val_specRestrict _ _ _ (mem_commonWeeks.mp hw).1]

theorem mse_nonneg (T E : TimeSeries) (u : ℚ) (h : (get_metrics T E).mse = some u) :
    0 ≤ u := by
  rw [get_metrics_eval] at h
  simp only [npMean] at h
  split at h
  · exact absurd h (by simp)
  · rw [Option.some_inj] at h
    subst h
    apply div_nonneg
    · apply List.sum_nonneg
      intro x hx
      simp at hx
      obtain ⟨a, _, rfl⟩ := hx
      positivity
    · positivity

theorem fdiv_right_zero (x : Option ℚ) : fdiv x (some 0) = none := by
  cases x <;> simp [fdiv]

theorem fdiv_right_none (x : Option ℚ) : fdiv x none = none := by
  cases x <;> simp [fdiv]

theorem lookup_filterMap_if (ks : List ℕ) (p : ℕ → Prop) [DecidablePred p] (f : ℕ → ℚ)
    (hnd : ks.Nodup) (w : ℕ) :
    (ks.filterMap (fun k => if p k then some (k, f k) else none)).lookup w
      = if w ∈ ks ∧ p w then some (f w) else none := by
  induction ks with
  | nil => simp
  | cons a t ih =>
    rw [List.nodup_cons] at hnd
    obtain ⟨ha, ht⟩ := hnd
    rw [List.filterMap_cons]
    by_cases hpa : p a
    · rw [if_pos hpa]
      by_cases haw : a = w
      · subst haw
        simp [List.lookup, hpa]
      · have hne : (w == a) = false := by
          simp only [beq_eq_false_iff_ne]
          exact fun e => haw e.symm
        rw [show (List.lookup w ((a, f a) :: t.filterMap
            (fun k => if p k then some (k, f k) else none)))
          = List.lookup w (t.filterMap (fun k => if p k then some (k, f k) else none)) by
            simp [List.lookup, hne]]
        rw [ih ht]
        by_cases hwt : w ∈ t
        · simp [hwt, haw, List.mem_cons]
        · simp [hwt, Ne.symm haw]
    · rw [if_neg hpa]
      rw [ih ht]
      by_cases haw : a = w
      · subst haw
        simp [ha, hpa]
      · simp [Ne.symm haw]

theorem keys_filterMap_if_subset (ks : List ℕ) (p : ℕ → Prop) [DecidablePred p] (f : ℕ → ℚ)
    (w : ℕ) (hw : w ∈ keys (ks.filterMap (fun k => if p k then some (k, f k) else none))) :
    w ∈ ks := by
  simp only [keys, List.mem_map, List.mem_filterMap] at hw
  obtain ⟨r, ⟨a, ha, hg⟩, rfl⟩ := hw
  split at hg
  · cases hg
    exact ha
  · cases hg

theorem experiment_excluded (rows : List NcRow) (loc : String) (lo : ℕ)
    (hloc : (loc = "vi" ∧ lo = 201327) ∨ (loc = "pr" ∧ lo = 201453)) (w : ℕ)
    (hw : w ∈ keys (experimentFromRows rows loc)) : lo ≤ w := by
  simp only [keys, experimentFromRows, List.mem_map, List.mem_filterMap] at hw
  obtain ⟨r, ⟨a, _, hg⟩, rfl⟩ := hw
  by_cases h1 : a.2.1 = loc
  · rw [if_pos h1] at hg
    by_cases h2 : (loc = "vi" ∧ a.1 < 201327) ∨ (loc = "pr" ∧ a.1 < 201453)
    · rw [if_pos h2] at hg
      cases hg
    · rw [if_neg h2] at hg
      cases hg
      rcases hloc with ⟨hv, rfl⟩ | ⟨hp, rfl⟩
      · subst hv
        push_neg at h2
        exact h2.1 rfl
      · subst hp
        push_neg at h2
        simp at h2
        omega
  · rw [if_neg h1] at hg
    cases hg

theorem experiment_lookup (rows : List NcRow) (loc : String) (w : ℕ) (v s : ℚ)
    (hnd : ((rows.filter (fun r => decide (r.2.1 = loc))).map (fun r => r.1)).Nodup)
    (hmem : (w, loc, v, s) ∈ rows)
    (hvi : loc = "vi" → 201327 ≤ w) (hpr : loc = "pr" → 201453 ≤ w) :
    (experimentFromRows rows loc).lookup w = some v := by
  induction rows with
  | nil => cases hmem
  | cons r t ih =>
    have hnotex : ¬((loc = "vi" ∧ w < 201327) ∨ (loc = "pr" ∧ w < 201453)) := by
      rintro (⟨h1, h2⟩ | ⟨h1, h2⟩)
      · exact absurd (hvi h1) (by omega)
      · exact absurd (hpr h1) (by omega)
    rcases List.mem_cons.mp hmem with rfl | hmem'
    · rw [show experimentFromRows ((w, loc, v, s) :: t) loc
          = (w, v) :: experimentFromRows t loc by
        simp [experimentFromRows, List.filterMap_cons, hnotex]]
      simp [List.lookup]
    · obtain ⟨k, place, vv, ss⟩ := r
      by_cases h1 : place = loc
      · subst h1
        have hfil : ((k, place, vv, ss) :: t).filter (fun r => decide (r.2.1 = place))
            = (k, place, vv, ss) :: t.filter (fun r => decide (r.2.1 = place)) := by
          simp [List.filter]
        rw [hfil, List.map_cons, List.nodup_cons] at hnd
        obtain ⟨hk, hnd'⟩ := hnd
        have hwk : k ≠ w := by
          intro e
          subst e
          exact hk (List.mem_map.mpr ⟨(k, place, v, s),
            List.mem_filter.mpr ⟨hmem', by simp⟩, rfl⟩)
        have hne : (w == k) = false := by
          simp only [beq_eq_false_iff_ne]
          exact Ne.symm hwk
        have hred : experimentFromRows ((k, place, vv, ss) :: t) place
            = (if (place = "vi" ∧ k < 201327) ∨ (place = "pr" ∧ k < 201453) then
                experimentFromRows t place
              else ((k, vv) :: experimentFromRows t place)) := by
          unfold experimentFromRows
          rw [List.filterMap_cons]
          by_cases h2 : (place = "vi" ∧ k < 201327) ∨ (place = "pr" ∧ k < 201453)
          · simp only [if_pos h2]
            simp
          · simp only [if_neg h2]
            simp
        rw [hred]
        by_cases h2 : (place = "vi" ∧ k < 201327) ∨ (place = "pr" ∧ k < 201453)
        · rw [if_pos h2]
          exact ih hnd' hmem'
        · rw [if_neg h2]
          rw [show List.lookup w ((k, vv) :: experimentFromRows t place)
              = List.lookup w (experimentFromRows t place) by simp [List.lookup, hne]]
          exact ih hnd' hmem'
      · have hfil : ((k, place, vv, ss) :: t).filter (fun r => decide (r.2.1 = loc))
            = t.filter (fun r => decide (r.2.1 = loc)) := by
          simp [List.filter, h1]
        rw [hfil] at hnd
        have hred : experimentFromRows ((k, place, vv, ss) :: t) loc
            = experimentFromRows t loc := by
          unfold experimentFromRows
          rw [List.filterMap_cons]
          simp [h1]
        rw [hred]
        exact ih hnd hmem'

theorem seqOption_map_some {α β : Type} (l : List α) (g : α → Option β) (g' : α → β)
    (h : ∀ x ∈ l, g x = some (g' x)) : seqOption (l.map g) = some (l.map g') := by
  induction l with
  | nil => rfl
  | cons a t ih =>
    rw [List.map_cons, List.map_cons, h a (List.mem_cons_self a t)]
    show seqOption (some (g' a) :: t.map g) = _
    rw [show seqOption (some (g' a) :: t.map g)
        = (seqOption (t.map g)).map (fun l => g' a :: l) from rfl]
    rw [ih (fun x hx => h x (List.mem_cons_of_mem a hx))]
    rfl

theorem seqOption_map_isSome {α β : Type} (l : List α) (g : α → Option β) :
    (seqOption (l.map g)).isSome = true ↔ ∀ x ∈ l, (g x).isSome = true := by
  induction l with
  | nil => simp [seqOption]
  | cons a t ih =>
    rw [List.map_cons]
    cases hga : g a with
    | none => simp [seqOption, hga]
    | some b =>
      rw [show seqOption (some b :: t.map g)
          = (seqOption (t.map g)).map (fun l => b :: l) from rfl]
      simp [hga, ih]

theorem listMin_isSome (l : List ℕ) : (listMin l).isSome = true ↔ l ≠ [] := by
  cases l <;> simp [listMin]

theorem keys_ne_nil_iff (t : TimeSeries) : keys t ≠ [] ↔ t ≠ [] := by
  cases t <;> simp [keys]

/-- C1: for truth and estimate series with intersecting epiweek-key sets,
`get_metrics` returns `n` equal to the size of the key-set intersection,
`mae` equal to the mean of `|E[w] - T[w]|` over the common weeks, and
`rmse` (the square root of the stored `mse` radicand) equal to the square
root of the mean of `(E[w] - T[w])^2`; in particular comparing a nonempty
series to itself gives `n = |T|`, `mae = 0` and `rmse = 0`. -/
theorem c1_metrics_alignment (T E : TimeSeries) (hT : (keys T).Nodup)
    (hne : ((keys T).toFinset ∩ (keys E).toFinset).Nonempty) :
    (get_metrics T E).n = ((keys T).toFinset ∩ (keys E).toFinset).card
    ∧ (get_metrics T E).mae =
        some ((((keys T).toFinset ∩ (keys E).toFinset).sum (fun w => |val E w - val T w|))
          / (((keys T).toFinset ∩ (keys E).toFinset).card : ℚ))
    ∧ (get_metrics T E).mse =
        some ((((keys T).toFinset ∩ (keys E).toFinset).sum (fun w => (val E w - val T w) ^ 2))
          / (((keys T).toFinset ∩ (keys E).toFinset).card : ℚ))
    ∧ (get_metrics T E).mse.map (fun q => Real.sqrt (q : ℝ))
        = some (Real.sqrt (((((keys T).toFinset ∩ (keys E).toFinset).sum
              (fun w => (val E w - val T w) ^ 2))
            / (((keys T).toFinset ∩ (keys E).toFinset).card : ℚ) : ℚ) : ℝ))
    ∧ (get_metrics T T).n = T.length
    ∧ (get_metrics T T).mae = some 0
    ∧ (get_metrics T T).mse.map (fun q => Real.sqrt (q : ℝ)) = some 0 := by
  have hW := commonWeeks_ne_nil (T := T) (E := E) hne
  have hlen := commonWeeks_length (T := T) (E := E) hT
  have hTne : T ≠ [] := by
    obtain ⟨w, hw⟩ := hne
    intro h
    subst h
    simp [keys] at hw
  have hself : (commonWeeks T T).length = T.length := by
    rw [commonWeeks_self, (List.perm_insertionSort _ _).length_eq]
    simp [keys]
  have hselfne : commonWeeks T T ≠ [] := by
    intro h
    rw [h] at hself
    exact hTne (List.length_eq_zero.mp hself.symm)
  have hmse : (get_metrics T E).mse =
      some ((((keys T).toFinset ∩ (keys E).toFinset).sum (fun w => (val E w - val T w) ^ 2))
        / (((keys T).toFinset ∩ (keys E).toFinset).card : ℚ)) := by
    rw [get_metrics_eval]
    show npMean ((commonWeeks T E).map (fun w => (val T w - val E w) ^ 2)) = _
    have hmc : (commonWeeks T E).map (fun w => (val T w - val E w) ^ 2)
        = (commonWeeks T E).map (fun w => (val E w - val T w) ^ 2) := by
      apply List.map_congr_left
      intro a _
      ring
    rw [hmc]
    unfold npMean
    rw [if_neg (by simpa using hW)]
    rw [List.length_map, sum_map_commonWeeks hT, hlen]
  refine ⟨?_, ?_, hmse, ?_, ?_, ?_, ?_⟩
  · rw [get_metrics_eval]
    exact hlen
  · rw [get_metrics_eval]
    show npMean ((commonWeeks T E).map (fun w => |val T w - val E w|)) = _
    have hmc : (commonWeeks T E).map (fun w => |val T w - val E w|)
        = (commonWeeks T E).map (fun w => |val E w - val T w|) := by
      apply List.map_congr_left
      intro a _
      exact abs_sub_comm _ _
    rw [hmc]
    unfold npMean
    rw [if_neg (by simpa using hW)]
    rw [List.length_map, sum_map_commonWeeks hT, hlen]
  · rw [hmse]
    rfl
  · rw [get_metrics_eval]
    exact hself
  · rw [get_metrics_eval]
    show npMean ((commonWeeks T T).map (fun w => |val T w - val T w|)) = some 0
    apply npMean_zero
    · simpa using hselfne
    · intro x hx
      simp at hx
      obtain ⟨a, _, rfl⟩ := hx
      simp
  · rw [get_metrics_eval]
    show (npMean ((commonWeeks T T).map (fun w => (val T w - val T w) ^ 2))).map
        (fun q => Real.sqrt (q : ℝ)) = some 0
    have hz : npMean ((commonWeeks T T).map (fun w => (val T w - val T w) ^ 2)) = some 0 := by
      apply npMean_zero
      · simpa using hselfne
      · intro x hx
        simp at hx
        obtain ⟨a, _, rfl⟩ := hx
        simp
    rw [hz]
    simp

/-- C1 witness: the spec's §8 example series, hypotheses discharged. -/
theorem c1_metrics_alignment_witness :
    (((keys [(100, (1 : ℚ)), (101, 2), (102, 3)]).Nodup)
    ∧ ((keys [(100, (1 : ℚ)), (101, 2), (102, 3)]).toFinset
        ∩ (keys [(100, (1 : ℚ)), (101, 3), (102, 3)]).toFinset).Nonempty)
    ∧ ((get_metrics [(100, (1 : ℚ)), (101, 2), (102, 3)] [(100, (1 : ℚ)), (101, 3), (102, 3)]).n
        = ((keys [(100, (1 : ℚ)), (101, 2), (102, 3)]).toFinset
            ∩ (keys [(100, (1 : ℚ)), (101, 3), (102, 3)]).toFinset).card
      ∧ (get_metrics [(100, (1 : ℚ)), (101, 2), (102, 3)] [(100, (1 : ℚ)), (101, 3), (102, 3)]).mae =
          some ((((keys [(100, (1 : ℚ)), (101, 2), (102, 3)]).toFinset
              ∩ (keys [(100, (1 : ℚ)), (101, 3), (102, 3)]).toFinset).sum
                (fun w => |val [(100, (1 : ℚ)), (101, 3), (102, 3)] w
                  - val [(100, (1 : ℚ)), (101, 2), (102, 3)] w|))
            / (((keys [(100, (1 : ℚ)), (101, 2), (102, 3)]).toFinset
              ∩ (keys [(100, (1 : ℚ)), (101, 3), (102, 3)]).toFinset).card : ℚ))
      ∧ (get_metrics [(100, (1 : ℚ)), (101, 2), (102, 3)] [(100, (1 : ℚ)), (101, 3), (102, 3)]).mse =
          some ((((keys [(100, (1 : ℚ)), (101, 2), (102, 3)]).toFinset
              ∩ (keys [(100, (1 : ℚ)), (101, 3), (102, 3)]).toFinset).sum
                (fun w => (val [(100, (1 : ℚ)), (101, 3), (102, 3)] w
                  - val [(100, (1 : ℚ)), (101, 2), (102, 3)] w) ^ 2))
            / (((keys [(100, (1 : ℚ)), (101, 2), (102, 3)]).toFinset
              ∩ (keys [(100, (1 : ℚ)), (101, 3), (102, 3)]).toFinset).card : ℚ))
      ∧ (get_metrics [(100, (1 : ℚ)), (101, 2), (102, 3)]
            [(100, (1 : ℚ)), (101, 3), (102, 3)]).mse.map (fun q => Real.sqrt (q : ℝ))
          = some (Real.sqrt (((((keys [(100, (1 : ℚ)), (101, 2), (102, 3)]).toFinset
                ∩ (keys [(100, (1 : ℚ)), (101, 3), (102, 3)]).toFinset).sum
                  (fun w => (val [(100, (1 : ℚ)), (101, 3), (102, 3)] w
                    - val [(100, (1 : ℚ)), (101, 2), (102, 3)] w) ^ 2))
              / (((keys [(100, (1 : ℚ)), (101, 2), (102, 3)]).toFinset
                ∩ (keys [(100, (1 : ℚ)), (101, 3), (102, 3)]).toFinset).card : ℚ) : ℚ) : ℝ))
      ∧ (get_metrics [(100, (1 : ℚ)), (101, 2), (102, 3)] [(100, (1 : ℚ)), (101, 2), (102, 3)]).n
          = [(100, (1 : ℚ)), (101, 2), (102, 3)].length
      ∧ (get_metrics [(100, (1 : ℚ)), (101, 2), (102, 3)]
            [(100, (1 : ℚ)), (101, 2), (102, 3)]).mae = some 0
      ∧ (get_metrics [(100, (1 : ℚ)), (101, 2), (102, 3)]
            [(100, (1 : ℚ)), (101, 2), (102, 3)]).mse.map (fun q => Real.sqrt (q : ℝ)) = some 0) :=
  ⟨⟨by decide, by decide⟩,
   c1_metrics_alignment [(100, (1 : ℚ)), (101, 2), (102, 3)] [(100, (1 : ℚ)), (101, 3), (102, 3)]
     (by decide) (by decide)⟩

/-- C2: with a baseline, `get_metrics` returns `mase = mae(T,E) / mae(T,B')`
and `rmsse = rmse(T,E) / rmse(T,B')` (stated on the squared radicands
together with the multiplicativity of the real square root), where `B'` is
the baseline restricted exactly to `keys(E) ∩ keys(B)`; the final conjunct
shows that skipping the estimate-key restriction changes the numeric
result, so the intersection order matters. -/
theorem c2_skill_score_restriction (T E B : TimeSeries) (x y u v : ℚ)
    (hx : (get_metrics T E).mae = some x)
    (hy : (get_metrics T (specRestrict B E)).mae = some y) (hy0 : y ≠ 0)
    (hu : (get_metrics T E).mse = some u)
    (hv : (get_metrics T (specRestrict B E)).mse = some v) (hv0 : v ≠ 0) :
    (get_metrics_with_naive T E B).mase = some (x / y)
    ∧ (get_metrics_with_naive T E B).rmsseSq = some (u / v)
    ∧ Real.sqrt ((u : ℝ) / (v : ℝ)) = Real.sqrt (u : ℝ) / Real.sqrt (v : ℝ)
    ∧ (get_metrics_with_naive [(1, (0 : ℚ)), (2, 0)] [(1, (1 : ℚ))] [(1, (1 : ℚ)), (2, 3)]).mase
        ≠ fdiv (get_metrics [(1, (0 : ℚ)), (2, 0)] [(1, (1 : ℚ))]).mae
            (get_metrics [(1, (0 : ℚ)), (2, 0)] [(1, (1 : ℚ)), (2, 3)]).mae := by
  have hrw := trimmed_eq_specRestrict T E B
  refine ⟨?_, ?_, ?_, ?_⟩
  · show fdiv (get_metrics T E).mae (get_metrics T (trimmedNaive E B)).mae = some (x / y)
    rw [hrw, hx, hy]
    simp [fdiv, hy0]
  · show fdiv (get_metrics T E).mse (get_metrics T (trimmedNaive E B)).mse = some (u / v)
    rw [hrw, hu, hv]
    simp [fdiv, hv0]
  · have hu0 : (0 : ℝ) ≤ (u : ℝ) := by exact_mod_cast mse_nonneg T E u hu
    exact Real.sqrt_div hu0 _
  · norm_num [get_metrics_with_naive, get_metrics, npMean, commonWeeks, val, keys, trimmedNaive,
      List.insertionSort, List.orderedInsert, List.lookup, fdiv, BEq.beq, Nat.beq]

/-- C2 witness: concrete series with nonzero baseline errors. -/
theorem c2_skill_score_restriction_witness :
    ((get_metrics [(1,(0:ℚ)),(2,0)] [(1,(1:ℚ)),(2,3)]).mae = some 2)
    ∧ ((get_metrics [(1,(0:ℚ)),(2,0)] (specRestrict [(1,(2:ℚ)),(2,2)] [(1,(1:ℚ)),(2,3)])).mae = some 2)
    ∧ ((get_metrics_with_naive [(1,(0:ℚ)),(2,0)] [(1,(1:ℚ)),(2,3)] [(1,(2:ℚ)),(2,2)]).mase = some (2 / 2)) := by
  refine ⟨?_, ?_, ?_⟩
  · norm_num [get_metrics, npMean, commonWeeks, val, keys,
      List.insertionSort, List.orderedInsert, List.lookup, BEq.beq, Nat.beq]
  · norm_num [get_metrics, npMean, commonWeeks, val, keys, specRestrict, List.filter,
      List.insertionSort, List.orderedInsert, List.lookup, BEq.beq, Nat.beq]
  · exact (c2_skill_score_restriction [(1,(0:ℚ)),(2,0)] [(1,(1:ℚ)),(2,3)] [(1,(2:ℚ)),(2,2)] 2 2 5 4
      (by norm_num [get_metrics, npMean, commonWeeks, val, keys,
        List.insertionSort, List.orderedInsert, List.lookup, BEq.beq, Nat.beq])
      (by norm_num [get_metrics, npMean, commonWeeks, val, keys, specRestrict, List.filter,
        List.insertionSort, List.orderedInsert, List.lookup, BEq.beq, Nat.beq])
      (by norm_num)
      (by norm_num [get_metrics, npMean, commonWeeks, val, keys,
        List.insertionSort, List.orderedInsert, List.lookup, BEq.beq, Nat.beq])
      (by norm_num [get_metrics, npMean, commonWeeks, val, keys, specRestrict, List.filter,
        List.insertionSort, List.orderedInsert, List.lookup, BEq.beq, Nat.beq])
      (by norm_num)).1

/-- C3 counterexample: at concrete disjoint series the code returns a
result with `n = 0` and NaN metrics instead of raising
`EmptyIntersectionError`, and at a zero-error baseline it returns
non-finite skill scores instead of raising `DegenerateBaselineError`. -/
theorem c3_no_raise_counterexample :
    (get_metrics [(1, (1 : ℚ))] [(2, (1 : ℚ))]).n = 0
    ∧ (get_metrics [(1, (1 : ℚ))] [(2, (1 : ℚ))]).mae = none
    ∧ (get_metrics [(1, (1 : ℚ))] [(2, (1 : ℚ))]).mse = none
    ∧ (get_metrics_with_naive [(1, (2 : ℚ))] [(1, (5 : ℚ))] [(1, (2 : ℚ))]).mase = none
    ∧ (get_metrics_with_naive [(1, (2 : ℚ))] [(1, (5 : ℚ))] [(1, (2 : ℚ))]).rmsseSq = none := by
  refine ⟨?_, ?_, ?_, ?_, ?_⟩ <;>
    norm_num [get_metrics_with_naive, get_metrics, npMean, commonWeeks, val, keys, trimmedNaive,
      List.insertionSort, List.orderedInsert, List.lookup, fdiv, BEq.beq, Nat.beq]

/-- C3 (amended): `get_metrics` raises nothing.  On an empty truth/estimate
key intersection it returns `n = 0` with NaN (`none`) `mae` and `rmse`,
and when the restricted baseline's `mae` or `rmse` is zero — or itself NaN
— the skill scores come out non-finite (`none`), not as an exception. -/
theorem c3_nan_propagation (T E B : TimeSeries) :
    (commonWeeks T E = [] → get_metrics T E = ⟨0, none, none⟩)
    ∧ ((get_metrics T (trimmedNaive E B)).mae = some 0 →
        (get_metrics_with_naive T E B).mase = none)
    ∧ ((get_metrics T (trimmedNaive E B)).mse = some 0 →
        (get_metrics_with_naive T E B).rmsseSq = none)
    ∧ ((get_metrics T (trimmedNaive E B)).mae = none →
        (get_metrics_with_naive T E B).mase = none)
    ∧ ((get_metrics T (trimmedNaive E B)).mse = none →
        (get_metrics_with_naive T E B).rmsseSq = none) := by
  refine ⟨?_, ?_, ?_, ?_, ?_⟩
  · intro h
    rw [get_metrics_eval, h]
    simp [npMean]
  · intro h
    show fdiv (get_metrics T E).mae (get_metrics T (trimmedNaive E B)).mae = none
    rw [h, fdiv_right_zero]
  · intro h
    show fdiv (get_metrics T E).mse (get_metrics T (trimmedNaive E B)).mse = none
    rw [h, fdiv_right_zero]
  · intro h
    show fdiv (get_metrics T E).mae (get_metrics T (trimmedNaive E B)).mae = none
    rw [h, fdiv_right_none]
  · intro h
    show fdiv (get_metrics T E).mse (get_metrics T (trimmedNaive E B)).mse = none
    rw [h, fdiv_right_none]

/-- C3 witness: the amended theorem applied at concrete inputs. -/
theorem c3_nan_propagation_witness :
    get_metrics [(1, (1 : ℚ))] [(2, (1 : ℚ))] = ⟨0, none, none⟩
    ∧ (get_metrics_with_naive [(1, (2 : ℚ))] [(1, (5 : ℚ))] [(1, (2 : ℚ))]).mase = none :=
  ⟨(c3_nan_propagation [(1, (1 : ℚ))] [(2, (1 : ℚ))] []).1 (by decide),
   (c3_nan_propagation [(1, (2 : ℚ))] [(1, (5 : ℚ))] [(1, (2 : ℚ))]).2.1
     (by norm_num [get_metrics, npMean, commonWeeks, val, keys, trimmedNaive,
       List.insertionSort, List.orderedInsert, List.lookup, BEq.beq, Nat.beq])⟩

set_option maxRecDepth 8000 in
/-- C4 counterexample: `get_naive_nowcast` coincides with the spec's
lag-parameterised `naive` at lag 1 and differs from it at lag 52 on a
concrete truth series, so the lag is not a caller-selected parameter
supporting 52. -/
theorem c4_fixed_lag_counterexample :
    get_naive_nowcast (fun _ => 52) [(201452, (5 : ℚ)), (201551, 6), (201552, 7)]
      = naiveSpec (fun _ => 52) [(201452, (5 : ℚ)), (201551, 6), (201552, 7)] 1
    ∧ get_naive_nowcast (fun _ => 52) [(201452, (5 : ℚ)), (201551, 6), (201552, 7)]
      ≠ naiveSpec (fun _ => 52) [(201452, (5 : ℚ)), (201551, 6), (201552, 7)] 52 := by
  constructor
  · rfl
  · decide

/-- C4 (amended): the naive nowcast uses the fixed internal lag
`delta = 1`: for every epiweek `w` of the truth series the result has
`truth[w - 1 epiweek]` exactly when the previous epiweek is also present,
and is the spec's `naive` at lag 1. -/
theorem c4_naive_lag_one (wy : ℕ → ℕ) (truth : TimeSeries) (h : (keys truth).Nodup) (w : ℕ) :
    ((get_naive_nowcast wy truth).lookup w
      = if w ∈ keys truth ∧ prevEpiweek wy w ∈ keys truth
        then some (val truth (prevEpiweek wy w)) else none)
    ∧ get_naive_nowcast wy truth = naiveSpec wy truth 1 := by
  constructor
  · exact lookup_filterMap_if (keys truth) (fun k => subEpiweeks wy k 1 ∈ keys truth)
      (fun k => val truth (subEpiweeks wy k 1)) h w
  · rfl

/-- C4 witness: a truth series containing a week and its predecessor. -/
theorem c4_naive_lag_one_witness :
    ((keys [(201501, (1 : ℚ)), (201452, 3)]).Nodup)
    ∧ (((get_naive_nowcast (fun _ => 52) [(201501, (1 : ℚ)), (201452, 3)]).lookup 201501
        = if 201501 ∈ keys [(201501, (1 : ℚ)), (201452, 3)]
            ∧ prevEpiweek (fun _ => 52) 201501 ∈ keys [(201501, (1 : ℚ)), (201452, 3)]
          then some (val [(201501, (1 : ℚ)), (201452, 3)] (prevEpiweek (fun _ => 52) 201501))
          else none)
      ∧ get_naive_nowcast (fun _ => 52) [(201501, (1 : ℚ)), (201452, 3)]
          = naiveSpec (fun _ => 52) [(201501, (1 : ℚ)), (201452, 3)] 1) :=
  ⟨by decide, c4_naive_lag_one (fun _ => 52) [(201501, (1 : ℚ)), (201452, 3)] (by decide) 201501⟩

/-- C5: the ensemble nowcast has an entry exactly at the truth epiweeks
where at least one sensor contributes, its value is the `np.median` of the
contributing sensors' values, no epiweek outside the truth series appears,
and the even-count median convention is the arithmetic mean of the two
middle values. -/
theorem c5_ensemble_median (sensors : List TimeSeries) (truth : TimeSeries)
    (h : (keys truth).Nodup) (w : ℕ) :
    ((get_alternative_nowcast sensors truth).lookup w
      = if w ∈ keys truth ∧ contributions sensors w ≠ []
        then some (npMedian (contributions sensors w)) else none)
    ∧ (∀ w', w' ∈ keys (get_alternative_nowcast sensors truth) → w' ∈ keys truth)
    ∧ (∀ a b : ℚ, a ≤ b → npMedian [a, b] = (a + b) / 2) := by
  refine ⟨?_, ?_, ?_⟩
  · exact lookup_filterMap_if (keys truth) (fun ew => contributions sensors ew ≠ [])
      (fun ew => npMedian (contributions sensors ew)) h w
  · intro w' hw'
    exact keys_filterMap_if_subset (keys truth)
      (fun ew => contributions sensors ew ≠ [])
      (fun ew => npMedian (contributions sensors ew)) w' hw'
  · intro a b hab
    simp [npMedian, List.insertionSort, List.orderedInsert, hab]

/-- C5 witness: two sensors contributing at a common week. -/
theorem c5_ensemble_median_witness :
    ((keys [(10, (0 : ℚ)), (11, 0)]).Nodup)
    ∧ (((get_alternative_nowcast [[(10, (1 : ℚ))], [(10, (3 : ℚ)), (11, 5)]]
          [(10, (0 : ℚ)), (11, 0)]).lookup 10
        = if 10 ∈ keys [(10, (0 : ℚ)), (11, 0)]
            ∧ contributions [[(10, (1 : ℚ))], [(10, (3 : ℚ)), (11, 5)]] 10 ≠ []
          then some (npMedian (contributions [[(10, (1 : ℚ))], [(10, (3 : ℚ)), (11, 5)]] 10))
          else none)
      ∧ (∀ w', w' ∈ keys (get_alternative_nowcast [[(10, (1 : ℚ))], [(10, (3 : ℚ)), (11, 5)]]
            [(10, (0 : ℚ)), (11, 0)]) → w' ∈ keys [(10, (0 : ℚ)), (11, 0)])
      ∧ (∀ a b : ℚ, a ≤ b → npMedian [a, b] = (a + b) / 2)) :=
  ⟨by decide, c5_ensemble_median [[(10, (1 : ℚ))], [(10, (3 : ℚ)), (11, 5)]] [(10, (0 : ℚ)), (11, 0)]
    (by decide) 10⟩

/-- C6: `get_experiment` keeps no epiweek below 201327 for location `vi`
and none below 201453 for `pr`, and for any stored row whose location
matches and which is not excluded by those thresholds the returned value
is exactly the raw stored value. -/
theorem c6_experiment_exclusion (data : String → List NcRow) (name loc : String) (w : ℕ) (v s : ℚ)
    (hnd : (((data ("nc_" ++ name)).filter
        (fun r => decide (r.2.1 = loc))).map (fun r => r.1)).Nodup)
    (hmem : (w, loc, v, s) ∈ data ("nc_" ++ name))
    (hvi : loc = "vi" → 201327 ≤ w) (hpr : loc = "pr" → 201453 ≤ w) :
    (get_experiment data name loc).lookup w = some v
    ∧ (∀ w', w' ∈ keys (get_experiment data name ("vi")) → 201327 ≤ w')
    ∧ (∀ w', w' ∈ keys (get_experiment data name ("pr")) → 201453 ≤ w') := by
  refine ⟨experiment_lookup _ _ _ _ _ hnd hmem hvi hpr, ?_, ?_⟩
  · intro w' hw'
    exact experiment_excluded _ ("vi") 201327 (Or.inl ⟨rfl, rfl⟩) w' hw'
  · intro w' hw'
    exact experiment_excluded _ ("pr") 201453 (Or.inr ⟨rfl, rfl⟩) w' hw'

/-- C6 witness: a vanilla table with vi rows on both sides of 201327. -/
theorem c6_experiment_exclusion_witness :
    ((get_experiment
        (fun k => if k = "nc_vanilla" then
            [(201327, "vi", (1 : ℚ), (0 : ℚ)), (201326, "vi", 2, 0), (201500, "nat", 3, 0)]
          else []) ("vanilla") ("vi")).lookup 201327 = some 1)
    ∧ (∀ w', w' ∈ keys (get_experiment
        (fun k => if k = "nc_vanilla" then
            [(201327, "vi", (1 : ℚ), (0 : ℚ)), (201326, "vi", 2, 0), (201500, "nat", 3, 0)]
          else []) ("vanilla") ("vi")) → 201327 ≤ w')
    ∧ (∀ w', w' ∈ keys (get_experiment
        (fun k => if k = "nc_vanilla" then
            [(201327, "vi", (1 : ℚ), (0 : ℚ)), (201326, "vi", 2, 0), (201500, "nat", 3, 0)]
          else []) ("vanilla") ("pr")) → 201453 ≤ w') :=
  c6_experiment_exclusion
    (fun k => if k = "nc_vanilla" then
        [(201327, "vi", (1 : ℚ), (0 : ℚ)), (201326, "vi", 2, 0), (201500, "nat", 3, 0)]
      else []) ("vanilla") ("vi") 201327 1 0
    (by decide) (by decide) (by decide) (by decide)

/-- C7: the heatmap builder returns the matrix over the full inclusive
epiweek range from the least per-sensor minimum to the greatest per-sensor
maximum, each entry being the sensor's value where present and the
sentinel `-1` otherwise, together with the sensor labels and the week
axis; the two-sensor example of the spec is included verbatim. -/
theorem c7_heatmap_matrix (wy : ℕ → ℕ) (sensors : List (String × TimeSeries))
    (hall : ∀ s ∈ sensors, keys s.2 ≠ []) (w0 w1 : ℕ)
    (h0 : listMin (sensors.map (fun s => (listMin (keys s.2)).getD 0)) = some w0)
    (h1 : listMax (sensors.map (fun s => (listMax (keys s.2)).getD 0)) = some w1) :
    get_heatmap_data wy sensors
      = some (sensors.map (fun s =>
            (rangeEpiweeks wy w0 w1).map
              (fun ew => if ew ∈ keys s.2 then val s.2 ew else -1)),
          sensors.map Prod.fst,
          rangeEpiweeks wy w0 w1)
    ∧ (∀ vA10 vA11 vA12 vB11 vB12 vB13 : ℚ,
        get_heatmap_data (fun _ => 52)
          [("A", [(10, vA10), (11, vA11), (12, vA12)]),
           ("B", [(11, vB11), (12, vB12), (13, vB13)])]
        = some ([[vA10, vA11, vA12, -1], [-1, vB11, vB12, vB13]],
            ["A", "B"], [10, 11, 12, 13])) := by
  constructor
  · have hmin : seqOption (sensors.map (fun s => listMin (keys s.2)))
        = some (sensors.map (fun s => (listMin (keys s.2)).getD 0)) := by
      apply seqOption_map_some
      intro x hx
      rcases hk : keys x.2 with _ | ⟨a, t⟩
      · exact absurd hk (hall x hx)
      · rfl
    have hmax : seqOption (sensors.map (fun s => listMax (keys s.2)))
        = some (sensors.map (fun s => (listMax (keys s.2)).getD 0)) := by
      apply seqOption_map_some
      intro x hx
      rcases hk : keys x.2 with _ | ⟨a, t⟩
      · exact absurd hk (hall x hx)
      · rfl
    simp only [get_heatmap_data, hmin, hmax, h0, h1]
  · intro vA10 vA11 vA12 vB11 vB12 vB13
    rfl

/-- C7 witness: a single sensor with one reading. -/
theorem c7_heatmap_matrix_witness :
    (get_heatmap_data (fun _ => 52) [("A", [(10, (2 : ℚ))])]
      = some ([("A", [(10, (2 : ℚ))])].map (fun s =>
            (rangeEpiweeks (fun _ => 52) 10 10).map
              (fun ew => if ew ∈ keys s.2 then val s.2 ew else -1)),
          [("A", [(10, (2 : ℚ))])].map Prod.fst,
          rangeEpiweeks (fun _ => 52) 10 10))
    ∧ (∀ vA10 vA11 vA12 vB11 vB12 vB13 : ℚ,
        get_heatmap_data (fun _ => 52)
          [("A", [(10, vA10), (11, vA11), (12, vA12)]),
           ("B", [(11, vB11), (12, vB12), (13, vB13)])]
        = some ([[vA10, vA11, vA12, -1], [-1, vB11, vB12, vB13]],
            ["A", "B"], [10, 11, 12, 13])) :=
  c7_heatmap_matrix (fun _ => 52) [("A", [(10, (2 : ℚ))])] (by decide) 10 10 (by decide) (by decide)

/-- C8 counterexample: with one sensor holding a reading and another
holding none, the heatmap builder fails even though at least one sensor
has data, contradicting the claim that it fails only when no sensor has
any data. -/
theorem c8_partial_sensor_counterexample :
    (∃ s ∈ [("A", [(10, (1 : ℚ))]), ("B", ([] : TimeSeries))], s.2 ≠ [])
    ∧ get_heatmap_data (fun _ => 52)
        [("A", [(10, (1 : ℚ))]), ("B", ([] : TimeSeries))] = none := by
  constructor
  · exact ⟨("A", [(10, (1 : ℚ))]), by simp, by simp⟩
  · rfl

/-- C8 (amended): the heatmap builder succeeds exactly when the sensor list
is nonempty and every sensor has at least one reading at the location; a
single sensor with no data makes the whole computation fail. -/
theorem c8_heatmap_failure (wy : ℕ → ℕ) (sensors : List (String × TimeSeries)) :
    (get_heatmap_data wy sensors).isSome = true
      ↔ (sensors ≠ [] ∧ ∀ s ∈ sensors, s.2 ≠ []) := by
  constructor
  · intro h
    cases hmin : seqOption (sensors.map (fun s => listMin (keys s.2))) with
    | none =>
      rw [get_heatmap_data, hmin] at h
      cases hmax : seqOption (sensors.map (fun s => listMax (keys s.2))) <;>
        rw [hmax] at h <;> simp at h
    | some w0s =>
      cases hmax : seqOption (sensors.map (fun s => listMax (keys s.2))) with
      | none =>
        rw [get_heatmap_data, hmin, hmax] at h
        simp at h
      | some w1s =>
        constructor
        · intro hnil
          subst hnil
          rw [get_heatmap_data] at h
          simp [seqOption, listMin, listMax] at h
        · intro s hs
          have hsome : (listMin (keys s.2)).isSome = true := by
            have := (seqOption_map_isSome sensors (fun s => listMin (keys s.2))).mp
              (by rw [hmin]; rfl)
            exact this s hs
          rw [← keys_ne_nil_iff]
          exact (listMin_isSome (keys s.2)).mp hsome
  · rintro ⟨hne, hall⟩
    have hallk : ∀ s ∈ sensors, keys s.2 ≠ [] := by
      intro s hs
      rw [keys_ne_nil_iff]
      exact hall s hs
    have hmin : seqOption (sensors.map (fun s => listMin (keys s.2)))
        = some (sensors.map (fun s => (listMin (keys s.2)).getD 0)) := by
      apply seqOption_map_some
      intro x hx
      rcases hk : keys x.2 with _ | ⟨a, t⟩
      · exact absurd hk (hallk x hx)
      · rfl
    have hmax : seqOption (sensors.map (fun s => listMax (keys s.2)))
        = some (sensors.map (fun s => (listMax (keys s.2)).getD 0)) := by
      apply seqOption_map_some
      intro x hx
      rcases hk : keys x.2 with _ | ⟨a, t⟩
      · exact absurd hk (hallk x hx)
      · rfl
    rcases sensors with _ | ⟨a, t⟩
    · exact absurd rfl hne
    · rw [get_heatmap_data, hmin, hmax]
      simp [listMin, listMax]

/-- C9 counterexample: a four-column row whose trailing (std) cell fails to
parse makes the loader raise, and one whose value cell (second-to-last)
fails to parse is accepted with the raw text retained — the opposite of
the claimed required/optional roles. -/
theorem c9_column_counterexample :
    coerceRow (fun s => if s = "201301" then some 201301 else none)
        (fun s => if s = "bad" then none else some 1)
        ["201301", "nat", "1.5", "bad"] = none
    ∧ coerceRow (fun s => if s = "201301" then some 201301 else none)
        (fun s => if s = "bad" then none else some 1)
        ["201301", "nat", "bad", "1.5"]
      = some [Cell.intC 201301, Cell.textC ("nat"), Cell.textC ("bad"), Cell.numC 1] := by
  constructor <;> rfl

/-- C9 (amended): the loader coerces the first cell with `int` and the last
cell with `float`, failing when either parse fails; the second-to-last
cell is attempted as `float` and kept as raw text when the parse fails;
all other cells stay raw text. -/
theorem c9_loader_coercion (intP : String → Option Int) (floatP : String → Option ℚ)
    (c0 : String) (mid : List String) (cv cs : String) (i : Int) (q : ℚ)
    (h0 : intP c0 = some i) (h1 : floatP cs = some q) :
    (coerceRow intP floatP (c0 :: mid ++ [cv, cs])
      = some (Cell.intC i :: mid.map Cell.textC
          ++ [(floatP cv).elim (Cell.textC cv) Cell.numC, Cell.numC q]))
    ∧ (∀ c0', intP c0' = none → coerceRow intP floatP (c0' :: mid ++ [cv, cs]) = none)
    ∧ (∀ cs', floatP cs' = none → coerceRow intP floatP (c0 :: mid ++ [cv, cs']) = none) := by
  have hrev : ∀ z : String, (mid ++ [cv, z]).reverse = z :: cv :: mid.reverse := by
    intro z
    simp
  refine ⟨?_, ?_, ?_⟩
  · show coerceCells intP floatP c0 ((mid ++ [cv, cs]).reverse) = _
    rw [hrev]
    show (intP c0).bind (fun i => (floatP cs).map (fun q =>
        Cell.intC i :: ((mid.reverse).reverse.map Cell.textC)
          ++ [(floatP cv).elim (Cell.textC cv) Cell.numC, Cell.numC q])) = _
    rw [h0, h1]
    simp
  · intro c0' h
    show coerceCells intP floatP c0' ((mid ++ [cv, cs]).reverse) = _
    rw [hrev]
    show (intP c0').bind (fun i => (floatP cs).map (fun q =>
        Cell.intC i :: ((mid.reverse).reverse.map Cell.textC)
          ++ [(floatP cv).elim (Cell.textC cv) Cell.numC, Cell.numC q])) = _
    rw [h]
    rfl
  · intro cs' h
    show coerceCells intP floatP c0 ((mid ++ [cv, cs']).reverse) = _
    rw [hrev]
    show (intP c0).bind (fun i => (floatP cs').map (fun q =>
        Cell.intC i :: ((mid.reverse).reverse.map Cell.textC)
          ++ [(floatP cv).elim (Cell.textC cv) Cell.numC, Cell.numC q])) = _
    rw [h0, h]
    rfl

/-- C9 witness: concrete parsers and a four-cell row. -/
theorem c9_loader_coercion_witness :
    (((fun s => if s = "201301" then some (201301 : Int) else none) ("201301") = some 201301)
    ∧ ((fun s => if s = "bad" then none else some (1 : ℚ)) ("1.5") = some 1))
    ∧ (coerceRow (fun s => if s = "201301" then some (201301 : Int) else none)
        (fun s => if s = "bad" then none else some (1 : ℚ))
        ("201301" :: ["nat"] ++ ["bad", "1.5"])
      = some (Cell.intC 201301 :: ["nat"].map Cell.textC
          ++ [((fun s => if s = "bad" then none else some (1 : ℚ)) "bad").elim
                (Cell.textC ("bad")) Cell.numC, Cell.numC 1])) :=
  ⟨⟨by decide, by decide⟩,
   (c9_loader_coercion (fun s => if s = "201301" then some (201301 : Int) else none)
     (fun s => if s = "bad" then none else some (1 : ℚ))
     ("201301") (["nat"]) ("bad") ("1.5") 201301 1 (by decide) (by decide)).1⟩

/-- C10: the fused-model nowcast series is exactly the vanilla experiment
series, so the vi/pr early-epiweek exclusions apply to it verbatim. -/
theorem c10_nowcast_delegates (data : String → List NcRow) (loc : String) :
    get_nowcast data loc = get_experiment data "vanilla" loc
    ∧ (∀ w, w ∈ keys (get_nowcast data ("vi")) → 201327 ≤ w)
    ∧ (∀ w, w ∈ keys (get_nowcast data ("pr")) → 201453 ≤ w) :=
  ⟨rfl,
   fun w hw => experiment_excluded _ ("vi") 201327 (Or.inl ⟨rfl, rfl⟩) w hw,
   fun w hw => experiment_excluded _ ("pr") 201453 (Or.inr ⟨rfl, rfl⟩) w hw⟩

/-- C8 witness: the amended equivalence at a one-sensor instance. -/
theorem c8_heatmap_failure_witness :
    (get_heatmap_data (fun _ => 52) [("A", [(10, (1 : ℚ))])]).isSome = true
      ↔ (([("A", [(10, (1 : ℚ))])] : List (String × TimeSeries)) ≠ []
          ∧ ∀ s ∈ ([("A", [(10, (1 : ℚ))])] : List (String × TimeSeries)), s.2 ≠ []) :=
  c8_heatmap_failure (fun _ => 52) [("A", [(10, (1 : ℚ))])]

/-- C10 witness: the delegation equation at a concrete data environment. -/
theorem c10_nowcast_delegates_witness :
    get_nowcast (fun _ => []) ("nat") = get_experiment (fun _ => []) ("vanilla") ("nat")
    ∧ (∀ w, w ∈ keys (get_nowcast (fun _ => []) ("vi")) → 201327 ≤ w)
    ∧ (∀ w, w ∈ keys (get_nowcast (fun _ => []) ("pr")) → 201453 ≤ w) :=
  c10_nowcast_delegates (fun _ => []) ("nat")

end Nowcast
